import Mathlib

/-!
Verification of the TotalMix OSC volume controller
(`totalmix_volume_controller.py`) against its design specification.

The controller is embedded shallowly:

* Python floats are modelled as rationals (`ℚ`); the arithmetic the
  controller performs (addition, subtraction, `max`/`min` clamping) is
  exact on the values appearing in the specification's scenarios.
* `self.client.send_message(addr, v)` calls are modelled by returning the
  ordered list of `(address, payload)` datagrams an operation emits.
* The feedback handler `_handle_osc_feedback` is fallible (Python's
  `float(args[0])` raises `ValueError` on a non-numeric string), so it
  returns `Except String ControllerState`.
* Console printing, threading, and actual socket I/O have no effect on the
  controller state and are not modelled.
-/

/-- An OSC argument as delivered to the feedback handler by the
dispatcher: a float (modelled as `ℚ`), an integer, or a string. -/
inductive OscArg where
  | f (x : ℚ)
  | i (n : ℤ)
  | s (str : String)
deriving DecidableEq, Repr

/-- One outgoing datagram: `(address, float payload)`, as produced by
`self.client.send_message`. -/
abbrev OscOut := String × ℚ

/-- Strip leading and trailing whitespace, as Python's `float(str)` does
before parsing. -/
def stripSpaces (cs : List Char) : List Char :=
  ((cs.dropWhile Char.isWhitespace).reverse.dropWhile Char.isWhitespace).reverse

/-- An optional leading sign; returns `(isNegative, rest)`. -/
def parseSign : List Char → Bool × List Char
  | '-' :: rest => (true, rest)
  | '+' :: rest => (false, rest)
  | cs => (false, cs)

/-- Split off a maximal run of decimal digits. -/
def parseDigits (cs : List Char) : List Char × List Char :=
  (cs.takeWhile Char.isDigit, cs.dropWhile Char.isDigit)

/-- Numeric value of a digit run. -/
def digitsVal (ds : List Char) : ℕ :=
  ds.foldl (fun acc c => 10 * acc + (c.toNat - 48)) 0

/-- Parse the mantissa of a decimal literal: `digits`, `digits.digits`,
`digits.` or `.digits`; at least one digit must be present. Returns the
value and the unconsumed suffix. -/
def parseMantissa (cs : List Char) : Option (ℚ × List Char) :=
  let (ipart, rest) := parseDigits cs
  match rest with
  | '.' :: rest2 =>
    let (fpart, rest3) := parseDigits rest2
    if ipart.isEmpty && fpart.isEmpty then none
    else some ((digitsVal (ipart ++ fpart) : ℚ) / (10 : ℚ) ^ fpart.length, rest3)
  | _ => if ipart.isEmpty then none else some ((digitsVal ipart : ℚ), rest)

/-- Parse an optional exponent part `e±digits` at the end of the literal;
anything else left over makes the literal invalid. -/
def parseExpPart (cs : List Char) : Option ℤ :=
  match cs with
  | [] => some 0
  | e :: rest =>
    if e = 'e' || e = 'E' then
      let (neg, rest2) := parseSign rest
      let (ds, rest3) := parseDigits rest2
      if ds.isEmpty || !rest3.isEmpty then none
      else some (if neg then -(digitsVal ds : ℤ) else (digitsVal ds : ℤ))
    else none

/-- Multiply by a (possibly negative) power of ten. -/
def applyExp10 (q : ℚ) (e : ℤ) : ℚ :=
  if 0 ≤ e then q * (10 : ℚ) ^ e.toNat else q / (10 : ℚ) ^ (-e).toNat

/-- Modelled from the spec: Python's built-in `float(str)` conversion used
by `_handle_osc_feedback` (the conversion itself is library code, not in
the repository). Accepts an optionally signed decimal literal with an
optional fraction and exponent, surrounded by optional whitespace; any
other string is rejected (in Python: `ValueError`). -/
def parsePyFloat (str : String) : Option ℚ :=
  let cs := stripSpaces str.data
  let (neg, cs1) := parseSign cs
  match parseMantissa cs1 with
  | none => none
  | some (m, rest) =>
    match parseExpPart rest with
    | none => none
    | some e => some (applyExp10 (if neg then -m else m) e)

/-- Python's `float(x)` applied to an OSC argument: the identity on
floats, exact conversion on integers, and `parsePyFloat` on strings,
raising (modelled as `Except.error`) when the string is not numeric. -/
def pyFloat : OscArg → Except String ℚ
  | .f x => .ok x
  | .i n => .ok (n : ℚ)
  | .s str =>
    match parsePyFloat str with
    | some q => .ok q
    | none => .error ("could not convert string to float: " ++ str)

/-- The mutable attributes of `TotalMixController`, in the order
`__init__` assigns them. `volume_addresses` is derived from `faders`
below, exactly as `__init__` computes it. -/
structure ControllerState where
  ip : String
  port : ℕ
  receive_port : ℕ
  step : ℚ
  current_volume : ℚ
  is_muted : Bool
  running : Bool
  faders : List ℕ
  received_feedback : Bool
deriving DecidableEq, Repr

/-- `BUS_OUTPUT = "/1/busOutput"`. -/
def BUS_OUTPUT : String := "/1/busOutput"

/-- `MASTER_VOLUME = "/1/mastervolume"`. -/
def MASTER_VOLUME : String := "/1/mastervolume"

/-- `MASTER_MUTE = "/1/mainMute"`. -/
def MASTER_MUTE : String := "/1/mainMute"

/-- `MAIN_DIM = "/1/mainDim"`. -/
def MAIN_DIM : String := "/1/mainDim"

/-- `UNITY_GAIN = 0.7197`. -/
def UNITY_GAIN : ℚ := 7197 / 10000

/-- `MIN_VOLUME = 0.0`. -/
def MIN_VOLUME : ℚ := 0

/-- `MAX_VOLUME = 1.0`. -/
def MAX_VOLUME : ℚ := 1

/-- `self.volume_addresses = [f"/1/volume{f}" for f in self.faders]`. -/
def volume_addresses (s : ControllerState) : List String :=
  s.faders.map (fun f => "/1/volume" ++ toString f)

/-- `TotalMixController.__init__`: stores the endpoint configuration,
starts at mid-scale volume, unmuted, running, with
`faders if faders else [1, 2, 3, 4, 5, 6]` (a `None` argument and an
empty list are both falsy in Python and select the default), and sends
the bus-select command (`_select_output_bus`). Returns the constructed
state and the datagrams sent during construction. -/
def initController (ip : String) (port receive_port : ℕ) (step : ℚ)
    (faders : Option (List ℕ)) : ControllerState × List OscOut :=
  let fs : List ℕ :=
    match faders with
    | some l => if l.isEmpty then [1, 2, 3, 4, 5, 6] else l
    | none => [1, 2, 3, 4, 5, 6]
  ({ ip := ip, port := port, receive_port := receive_port, step := step,
     current_volume := 1/2, is_muted := false, running := true,
     faders := fs, received_feedback := false },
   [(BUS_OUTPUT, 1)])

/-- The state built by `__init__` with the script's default arguments
(`port=7001`, `receive_port=9001`, `step=0.02`, `faders=None`). -/
def initialState : ControllerState :=
  (initController "192.168.1.100" 7001 9001 (1/50) none).fst

/-- `set_volume`: clamp the requested value into
`[MIN_VOLUME, MAX_VOLUME]`, store it optimistically, then send the
bus-select command, one datagram per fader address, and one datagram to
the master-volume address. -/
def set_volume (s : ControllerState) (value : ℚ) : ControllerState × List OscOut :=
  let v := max MIN_VOLUME (min MAX_VOLUME value)
  ({ s with current_volume := v },
   (BUS_OUTPUT, 1) :: (volume_addresses s).map (fun addr => (addr, v)) ++
     [(MASTER_VOLUME, v)])

/-- `volume_up`: `set_volume(current_volume + step)`. -/
def volume_up (s : ControllerState) : ControllerState × List OscOut :=
  set_volume s (s.current_volume + s.step)

/-- `volume_down`: `set_volume(current_volume - step)`. -/
def volume_down (s : ControllerState) : ControllerState × List OscOut :=
  set_volume s (s.current_volume - s.step)

/-- `toggle_mute`: flip `is_muted`, then send the new state to the
master-mute address as `1.0`/`0.0`. -/
def toggle_mute (s : ControllerState) : ControllerState × List OscOut :=
  let s1 := { s with is_muted := !s.is_muted }
  (s1, [(MASTER_MUTE, if s1.is_muted then 1 else 0)])

/-- `set_unity_gain`: `set_volume(UNITY_GAIN)`. -/
def set_unity_gain (s : ControllerState) : ControllerState × List OscOut :=
  set_volume s UNITY_GAIN

/-- `_handle_osc_feedback`: mark feedback as received (the flag is set by
every inbound message, whatever its address), then, if the address is one
of the fader addresses and at least one argument is present, overwrite
`current_volume` with `float(args[0])`; that conversion raises on a
non-numeric string argument. -/
def handle_osc_feedback (s : ControllerState) (address : String)
    (args : List OscArg) : Except String ControllerState :=
  let s1 := if s.received_feedback then s else { s with received_feedback := true }
  if address ∈ volume_addresses s1 then
    match args with
    | [] => .ok s1
    | a :: _ =>
      match pyFloat a with
      | .ok q => .ok { s1 with current_volume := q }
      | .error e => .error e
  else .ok s1

/-- A controller operation, as invoked by the hotkey callbacks or by the
feedback dispatcher. -/
inductive Op where
  | setVolume (v : ℚ)
  | volumeUp
  | volumeDown
  | toggleMute
  | setUnityGain
  | onFeedback (address : String) (args : List OscArg)
deriving DecidableEq, Repr

/-- Run one operation: the local commands are total, the feedback handler
may raise. -/
def applyOp (s : ControllerState) : Op → Except String (ControllerState × List OscOut)
  | .setVolume v => .ok (set_volume s v)
  | .volumeUp => .ok (volume_up s)
  | .volumeDown => .ok (volume_down s)
  | .toggleMute => .ok (toggle_mute s)
  | .setUnityGain => .ok (set_unity_gain s)
  | .onFeedback addr args => (handle_osc_feedback s addr args).map (fun s2 => (s2, []))

/-- Run a sequence of operations, stopping at the first raised
exception. -/
def runOps (s : ControllerState) : List Op → Except String ControllerState
  | [] => .ok s
  | op :: ops =>
    match applyOp s op with
    | .ok (s2, _) => runOps s2 ops
    | .error e => .error e

/-- `true` unless the operation is a feedback message that updates the
stored level — one addressed to a fader address in `addrs` with a first
argument present — whose numeric value lies outside `[0, 1]`. Feedback
for other addresses never touches the level and is unconstrained. -/
def feedbackUpdatesInRange (addrs : List String) : Op → Bool
  | .onFeedback addr args =>
    if addr ∈ addrs then
      match args.head? with
      | some a =>
        match pyFloat a with
        | .ok q => decide (0 ≤ q) && decide (q ≤ 1)
        | .error _ => true
      | none => true
    else true
  | _ => true

/-- The clamp used by `set_volume` always lands in the unit interval. -/
theorem clamp_mem_unit (v : ℚ) : 0 ≤ max 0 (min 1 v) ∧ max 0 (min 1 v) ≤ 1 :=
  ⟨le_max_left 0 _, max_le (by norm_num) (min_le_left 1 v)⟩

/-- `set_volume` stores exactly the clamped value. -/
theorem set_volume_current (s : ControllerState) (v : ℚ) :
    (set_volume s v).fst.current_volume = max 0 (min 1 v) := rfl

/-- `set_volume` changes only `current_volume`. -/
theorem set_volume_only_volume (s : ControllerState) (v : ℚ) :
    (set_volume s v).fst = { s with current_volume := max 0 (min 1 v) } := rfl

/-- The state of specification scenario 1: `faderSet = {1,2}`,
`step = 0.02`, `current_volume = 0.5`. -/
def stateTwoFaders : ControllerState :=
  { ip := "192.168.1.100", port := 7001, receive_port := 9001, step := 1/50,
    current_volume := 1/2, is_muted := false, running := true,
    faders := [1, 2], received_feedback := false }

/-- A state with `faderSet = {1,2}` and a previous optimistic volume
`0.7`, used to exercise the feedback handler. -/
def stateFeedback : ControllerState :=
  { ip := "192.168.1.100", port := 7001, receive_port := 9001, step := 1/50,
    current_volume := 7/10, is_muted := false, running := true,
    faders := [1, 2], received_feedback := false }

/-- C2: for every input `v`, including `v < 0` and `v > 1`, `setVolume(v)`
stores exactly the clamp of `v` into `[0, 1]`; in particular
`setVolume(1.5)` yields `currentVolumeLevel == 1.0`. -/
theorem setVolume_clamps :
    (∀ (s : ControllerState) (v : ℚ),
      (set_volume s v).fst.current_volume = max 0 (min 1 v)) ∧
    (∀ s : ControllerState, (set_volume s (3/2)).fst.current_volume = 1) := by
  refine ⟨fun s v => rfl, fun s => ?_⟩
  show max 0 (min 1 (3/2 : ℚ)) = 1
  rw [min_eq_left (by norm_num), max_eq_right (by norm_num)]

/-- C4: from a level `L ∈ [0, 1]` and a nonnegative step, `volumeUp()`
increases `current_volume` by exactly `min(step, 1 - L)` and
`volumeDown()` decreases it by exactly `min(step, L)`. -/
theorem volume_step_exact (s : ControllerState)
    (h0 : 0 ≤ s.current_volume) (h1 : s.current_volume ≤ 1) (hs : 0 ≤ s.step) :
    (volume_up s).fst.current_volume
        = s.current_volume + min s.step (1 - s.current_volume) ∧
    (volume_down s).fst.current_volume
        = s.current_volume - min s.step s.current_volume := by
  constructor
  · show max 0 (min 1 (s.current_volume + s.step)) = _
    rcases le_total (s.current_volume + s.step) 1 with h | h
    · rw [min_eq_right h, max_eq_right (by linarith), min_eq_left (by linarith)]
    · rw [min_eq_left h, max_eq_right (by norm_num), min_eq_right (by linarith)]
      ring
  · show max 0 (min 1 (s.current_volume - s.step)) = _
    rcases le_total s.step s.current_volume with h | h
    · rw [min_eq_right (by linarith), max_eq_right (by linarith), min_eq_left h]
    · rw [min_eq_right (by linarith), max_eq_left (by linarith), min_eq_right h]
      ring

/-- Witness for C4 at the scenario state (`L = 0.5`, `step = 0.02`). -/
theorem volume_step_exact_witness :
    (volume_up stateTwoFaders).fst.current_volume
        = stateTwoFaders.current_volume
            + min stateTwoFaders.step (1 - stateTwoFaders.current_volume) ∧
    (volume_down stateTwoFaders).fst.current_volume
        = stateTwoFaders.current_volume
            - min stateTwoFaders.step stateTwoFaders.current_volume :=
  volume_step_exact stateTwoFaders (by norm_num [stateTwoFaders])
    (by norm_num [stateTwoFaders]) (by norm_num [stateTwoFaders])

/-- C5: with `faderSet = {1,2}`, `step = 0.02` and level `0.5`, one
`volumeUp()` sets the level to `0.52` and sends exactly 4 datagrams — the
bus-select message first (resent on every volume change), one message per
fader address, and the master-volume message. -/
theorem volumeUp_two_faders_scenario :
    (volume_up stateTwoFaders).fst.current_volume = 13/25 ∧
    (volume_up stateTwoFaders).snd
        = [(BUS_OUTPUT, 1), ("/1/volume1", 13/25), ("/1/volume2", 13/25),
           (MASTER_VOLUME, 13/25)] ∧
    (volume_up stateTwoFaders).snd.length = 4 ∧
    (∀ (s : ControllerState) (v : ℚ),
      (set_volume s v).snd.head? = some (BUS_OUTPUT, 1)) := by
  have hv : max 0 (min 1 (stateTwoFaders.current_volume + stateTwoFaders.step))
      = 13/25 := by
    have h : stateTwoFaders.current_volume + stateTwoFaders.step = 13/25 := by
      norm_num [stateTwoFaders]
    rw [h, min_eq_right (by norm_num), max_eq_right (by norm_num)]
  have haddr : volume_addresses stateTwoFaders = ["/1/volume1", "/1/volume2"] := by
    decide
  refine ⟨?_, ?_, ?_, fun s v => rfl⟩
  · show max 0 (min 1 (stateTwoFaders.current_volume + stateTwoFaders.step)) = 13/25
    exact hv
  · show (BUS_OUTPUT, (1 : ℚ)) ::
        (volume_addresses stateTwoFaders).map
          (fun addr =>
            (addr, max 0 (min 1 (stateTwoFaders.current_volume + stateTwoFaders.step)))) ++
        [(MASTER_VOLUME,
          max 0 (min 1 (stateTwoFaders.current_volume + stateTwoFaders.step)))] = _
    rw [hv, haddr]
    rfl
  · rfl

/-- C7: `toggleMute(); toggleMute();` restores the whole state (so in
particular the original `muted` value), and the two calls send exactly
one mute message each to the master-mute address, with opposite payloads
(`1.0` for muted, `0.0` for unmuted), each carrying the state after its
own flip. -/
theorem toggleMute_involution (s : ControllerState) :
    (toggle_mute (toggle_mute s).fst).fst = s ∧
    (toggle_mute s).snd
        = [(MASTER_MUTE, if s.is_muted then (0 : ℚ) else 1)] ∧
    (toggle_mute (toggle_mute s).fst).snd
        = [(MASTER_MUTE, if s.is_muted then (1 : ℚ) else 0)] := by
  rcases s with ⟨ip, port, rp, st, cv, m, r, fd, rf⟩
  cases m <;> simp [toggle_mute]

/-- The receive-flag update at the top of the handler only sets
`received_feedback`; every other field, and hence the fader address
list, is unchanged. -/
theorem handle_mark_received (s : ControllerState) :
    (if s.received_feedback then s else { s with received_feedback := true })
      = { s with received_feedback := true } := by
  rcases s with ⟨ip, port, rp, st, cv, m, r, fd, rf⟩
  cases rf <;> rfl

/-- C3: a feedback message for a fader address derived from `faderSet`
that carries at least one argument with a numeric value `q` overwrites
`current_volume` with `q` (and marks feedback as received), whatever the
earlier optimistic local value was. -/
theorem feedback_overwrites_volume (s : ControllerState) (addr : String)
    (a : OscArg) (rest : List OscArg) (q : ℚ)
    (haddr : addr ∈ volume_addresses s) (hq : pyFloat a = Except.ok q) :
    handle_osc_feedback s addr (a :: rest)
      = Except.ok { s with received_feedback := true, current_volume := q } := by
  unfold handle_osc_feedback
  rw [handle_mark_received s]
  have haddr2 : addr ∈ volume_addresses { s with received_feedback := true } := haddr
  rw [if_pos haddr2]
  simp only [hq]

/-- Witness for C3: `onFeedback("/1/volume1", [0.33])` with
`faderSet = {1,2}` and prior level `0.7` yields level `0.33`. -/
theorem feedback_overwrites_volume_witness :
    handle_osc_feedback stateFeedback "/1/volume1" [OscArg.f (33/100)]
      = Except.ok { stateFeedback with received_feedback := true, current_volume := 33/100 } :=
  feedback_overwrites_volume stateFeedback "/1/volume1" (OscArg.f (33/100)) []
    (33/100) (by decide) rfl

/-- C6 counterexample: `onFeedback("/1/volume9", [0.1])` with
`faderSet = {1,2}` does not leave the state unchanged — it flips
`received_feedback` from `false` to `true`. -/
theorem feedback_unknown_address_sets_flag :
    handle_osc_feedback stateFeedback "/1/volume9" [OscArg.f (1/10)]
      = Except.ok { stateFeedback with received_feedback := true } ∧
    stateFeedback.received_feedback = false := ⟨rfl, rfl⟩

/-- C6 as amended: a feedback message for an address outside the fader
addresses leaves `current_volume` and `is_muted` (and every other field)
unchanged, except that `received_feedback` is set to `true` — so the
state is fully unchanged only when feedback had already been received. -/
theorem feedback_unknown_address_ignored (s : ControllerState) (addr : String)
    (args : List OscArg) (haddr : addr ∉ volume_addresses s) :
    handle_osc_feedback s addr args
      = Except.ok { s with received_feedback := true } := by
  unfold handle_osc_feedback
  rw [handle_mark_received s]
  have haddr2 : addr ∉ volume_addresses { s with received_feedback := true } := haddr
  rw [if_neg haddr2]

/-- Witness for amended C6 at the spec's example input. -/
theorem feedback_unknown_address_ignored_witness :
    handle_osc_feedback stateFeedback "/1/volume9" [OscArg.f (1/10)]
      = Except.ok { stateFeedback with received_feedback := true } :=
  feedback_unknown_address_ignored stateFeedback "/1/volume9" [OscArg.f (1/10)]
    (by decide)

/-- C10: the feedback handler is not total — for a fader address in
`faderSet` and a first argument that is a string Python's `float` cannot
parse, `_handle_osc_feedback` raises instead of ignoring the message. -/
theorem feedback_raises_on_non_numeric_string (s : ControllerState)
    (addr : String) (str : String) (rest : List OscArg)
    (haddr : addr ∈ volume_addresses s) (hstr : parsePyFloat str = none) :
    handle_osc_feedback s addr (OscArg.s str :: rest)
      = Except.error ("could not convert string to float: " ++ str) := by
  unfold handle_osc_feedback
  rw [handle_mark_received s]
  have haddr2 : addr ∈ volume_addresses { s with received_feedback := true } := haddr
  rw [if_pos haddr2]
  simp only [pyFloat, hstr]

/-- Witness for C10: the message decodes fine, yet the handler raises on
the string argument `"abc"`. -/
theorem feedback_raises_on_non_numeric_string_witness :
    handle_osc_feedback stateFeedback "/1/volume2" [OscArg.s "abc"]
      = Except.error ("could not convert string to float: " ++ "abc") :=
  feedback_raises_on_non_numeric_string stateFeedback "/1/volume2" "abc" []
    (by decide) (by decide)

/-- C1 counterexample: from the freshly constructed state, a single
feedback message for fader address `/1/volume1` carrying `1.5` drives
`current_volume` to `1.5`, strictly above the claimed upper bound `1.0` —
the handler stores the raw feedback value without clamping. -/
theorem feedback_escapes_unit_interval :
    runOps initialState [Op.onFeedback "/1/volume1" [OscArg.f (3/2)]]
      = Except.ok { initialState with received_feedback := true, current_volume := 3/2 } ∧
    (1 : ℚ) < 3/2 := ⟨rfl, by norm_num⟩

/-- Successful feedback handling never changes the fader set, and
either leaves the level unchanged or stores the numeric value of the
first argument of a message addressed to one of the fader addresses. -/
theorem handle_osc_feedback_ok (s s3 : ControllerState) (addr : String)
    (args : List OscArg) (h : handle_osc_feedback s addr args = Except.ok s3) :
    s3.faders = s.faders ∧
      (s3.current_volume = s.current_volume ∨
        ∃ a q, args.head? = some a ∧ pyFloat a = Except.ok q ∧
          addr ∈ volume_addresses s ∧ s3.current_volume = q) := by
  unfold handle_osc_feedback at h
  rw [handle_mark_received s] at h
  by_cases hmem : addr ∈ volume_addresses { s with received_feedback := true }
  · rw [if_pos hmem] at h
    cases args with
    | nil =>
      cases h
      exact ⟨rfl, Or.inl rfl⟩
    | cons a rest =>
      cases hq : pyFloat a with
      | error e =>
        simp only [hq] at h
        exact Except.noConfusion h
      | ok q =>
        simp only [hq] at h
        cases h
        exact ⟨rfl, Or.inr ⟨a, q, rfl, hq, hmem, rfl⟩⟩
  · rw [if_neg hmem] at h
    cases h
    exact ⟨rfl, Or.inl rfl⟩

/-- One successful operation keeps the fader set, and keeps the volume
in `[0, 1]` as long as any level-updating feedback value it applies is
itself in `[0, 1]`. -/
theorem applyOp_faders_and_unit (s s2 : ControllerState) (op : Op) (msgs : List OscOut)
    (hinv : 0 ≤ s.current_volume ∧ s.current_volume ≤ 1)
    (hop : feedbackUpdatesInRange (volume_addresses s) op = true)
    (h : applyOp s op = Except.ok (s2, msgs)) :
    s2.faders = s.faders ∧ (0 ≤ s2.current_volume ∧ s2.current_volume ≤ 1) := by
  cases op with
  | setVolume v =>
    cases h
    exact ⟨rfl, clamp_mem_unit v⟩
  | volumeUp =>
    cases h
    exact ⟨rfl, clamp_mem_unit _⟩
  | volumeDown =>
    cases h
    exact ⟨rfl, clamp_mem_unit _⟩
  | toggleMute =>
    cases h
    exact ⟨rfl, hinv⟩
  | setUnityGain =>
    cases h
    exact ⟨rfl, clamp_mem_unit _⟩
  | onFeedback addr args =>
    simp only [applyOp] at h
    cases hh : handle_osc_feedback s addr args with
    | error e => rw [hh] at h; cases h
    | ok s3 =>
      rw [hh] at h
      simp only [Except.map, Except.ok.injEq, Prod.mk.injEq] at h
      obtain ⟨h2, h3⟩ := h
      subst h2
      obtain ⟨hf, hcv⟩ := handle_osc_feedback_ok s s3 addr args hh
      refine ⟨hf, ?_⟩
      rcases hcv with hsame | ⟨a, q, hhead, hq, hmem, hcvq⟩
      · rw [hsame]
        exact hinv
      · simp only [feedbackUpdatesInRange, if_pos hmem, hhead, hq,
          Bool.and_eq_true, decide_eq_true_eq] at hop
        rw [hcvq]
        exact hop

/-- Running any successful operation sequence from a state whose volume
is in `[0, 1]`, with every level-updating feedback value (relative to
that state's fader addresses) in `[0, 1]`, ends in `[0, 1]`. -/
theorem runOps_unit_invariant (ops : List Op) :
    ∀ s s2 : ControllerState,
      (0 ≤ s.current_volume ∧ s.current_volume ≤ 1) →
      (∀ op ∈ ops, feedbackUpdatesInRange (volume_addresses s) op = true) →
      runOps s ops = Except.ok s2 →
      0 ≤ s2.current_volume ∧ s2.current_volume ≤ 1 := by
  induction ops with
  | nil =>
    intro s s2 hinv _ hrun
    cases hrun
    exact hinv
  | cons op rest ih =>
    intro s s2 hinv hops hrun
    simp only [runOps] at hrun
    cases happ : applyOp s op with
    | error e => rw [happ] at hrun; cases hrun
    | ok p =>
      rw [happ] at hrun
      obtain ⟨hf, hinv2⟩ :=
        applyOp_faders_and_unit s p.fst op p.snd hinv (hops op (by simp)) happ
      refine ih p.fst s2 hinv2 (fun o ho => ?_) hrun
      have haddr : volume_addresses p.fst = volume_addresses s := by
        simp only [volume_addresses, hf]
      rw [haddr]
      exact hops o (by simp [ho])

/-- C1 as amended: starting from the initial state, `current_volume`
stays in `[0.0, 1.0]` under every sequence of controller operations,
provided each feedback message that updates the level — one addressed to
a fader address, carrying an argument — carries a numeric value itself
in `[0.0, 1.0]`; feedback for other addresses is unconstrained, and the
handler stores level updates without clamping, so the invariant is not
preserved for out-of-range fader feedback. -/
theorem current_volume_stays_in_unit_interval (ops : List Op) (s2 : ControllerState)
    (hops : ∀ op ∈ ops, feedbackUpdatesInRange (volume_addresses initialState) op = true)
    (hrun : runOps initialState ops = Except.ok s2) :
    0 ≤ s2.current_volume ∧ s2.current_volume ≤ 1 :=
  runOps_unit_invariant ops initialState s2
    ⟨by show (0 : ℚ) ≤ 1/2; norm_num, by show (1 : ℚ)/2 ≤ 1; norm_num⟩ hops hrun

/-- Witness for amended C1: an out-of-range feedback value for a
non-fader address (which never updates the level and so is allowed),
an in-range fader correction, then a mute toggle — ending at `0.33`. -/
theorem current_volume_stays_in_unit_interval_witness :
    0 ≤ ({ initialState with received_feedback := true, current_volume := 33/100, is_muted := true } : ControllerState).current_volume ∧
    ({ initialState with received_feedback := true, current_volume := 33/100, is_muted := true } : ControllerState).current_volume ≤ 1 :=
  current_volume_stays_in_unit_interval
    [Op.onFeedback "/1/volume9" [OscArg.f (3/2)],
     Op.onFeedback "/1/volume1" [OscArg.f (33/100)], Op.toggleMute]
    { initialState with received_feedback := true, current_volume := 33/100, is_muted := true }
    (by intro op hop
        simp only [List.mem_cons, List.mem_singleton] at hop
        rcases hop with h | h | h | h
        · subst h; rfl
        · subst h
          have hmem : ("/1/volume1" : String) ∈ volume_addresses initialState := by
            decide
          simp only [feedbackUpdatesInRange, if_pos hmem, List.head?, pyFloat,
            Bool.and_eq_true, decide_eq_true_eq]
          norm_num
        · subst h; rfl
        · cases h)
    rfl

/-- C8 counterexample: constructing the controller with an empty fader
list is not rejected — `faders if faders else [1, 2, 3, 4, 5, 6]` treats
the empty list as falsy, so a running controller state is created with
the substituted default fader set. -/
theorem empty_fader_set_not_rejected :
    (initController "192.168.1.100" 7001 9001 (1/50) (some [])).fst.faders
      = [1, 2, 3, 4, 5, 6] ∧
    (initController "192.168.1.100" 7001 9001 (1/50) (some [])).fst.running = true ∧
    (initController "192.168.1.100" 7001 9001 (1/50) (some [])).snd
      = [(BUS_OUTPUT, 1)] := ⟨rfl, rfl, rfl⟩

/-- C8 as amended: an empty (or absent) fader list is not a fatal
configuration error; `__init__` silently substitutes the default fader
set `[1, 2, 3, 4, 5, 6]`, and the constructed state never has an empty
fader set. -/
theorem empty_fader_set_substituted (ip : String) (port rp : ℕ) (step : ℚ)
    (faders : Option (List ℕ)) :
    (initController ip port rp step (some [])).fst.faders = [1, 2, 3, 4, 5, 6] ∧
    (initController ip port rp step none).fst.faders = [1, 2, 3, 4, 5, 6] ∧
    (initController ip port rp step faders).fst.faders.isEmpty = false := by
  refine ⟨rfl, rfl, ?_⟩
  cases faders with
  | none => rfl
  | some l => cases l <;> rfl

/-- Modelled from the spec: a wire-level OSC argument for the message
codec (the codec itself is library code, not in the repository). A
32-bit float argument is carried by its IEEE-754 bit pattern — the codec
serializes the 4 bytes verbatim and never interprets them. -/
inductive OscValue where
  | float32 (bits : ℕ)
  | int32 (n : ℤ)
  | str (text : String)
deriving DecidableEq, Repr

/-- Modelled from the spec: a control message — an address and an ordered
argument list. -/
structure ControlMessage where
  address : String
  arguments : List OscValue
deriving DecidableEq, Repr

/-- A codec-legal string: printable ASCII, in particular no NUL byte (NUL
terminates strings on the wire) and single-byte UTF-8. -/
def validOscStr (text : String) : Bool :=
  text.data.all (fun c => 0 < c.toNat && c.toNat < 128)

/-- A wire-legal argument: float bit patterns and integers fit in 32
bits, strings are codec-legal. -/
def validValue : OscValue → Bool
  | .float32 bits => decide (bits < 2 ^ 32)
  | .int32 n => decide (-(2 ^ 31) ≤ n) && decide (n < 2 ^ 31)
  | .str text => validOscStr text

/-- A wire-legal message. -/
def validMessage (m : ControlMessage) : Bool :=
  validOscStr m.address && m.arguments.all validValue

/-- The bytes of an ASCII string. -/
def strBytes (text : String) : List ℕ :=
  text.data.map Char.toNat

/-- NUL-terminate and pad to the next 4-byte boundary (1 to 4 NUL bytes,
so the total length is a multiple of 4). -/
def oscPadded (content : List ℕ) : List ℕ :=
  content ++ List.replicate (4 - content.length % 4) 0

/-- A 32-bit unsigned value as 4 big-endian bytes. -/
def be4 (u : ℕ) : List ℕ :=
  [u / 2 ^ 24 % 256, u / 2 ^ 16 % 256, u / 2 ^ 8 % 256, u % 256]

/-- Two's-complement 32-bit representation of an integer. -/
def uint32OfInt (n : ℤ) : ℕ :=
  (n % 2 ^ 32).toNat

/-- Read a 32-bit two's-complement value back. -/
def int32OfUint (u : ℕ) : ℤ :=
  if u < 2 ^ 31 then (u : ℤ) else (u : ℤ) - 2 ^ 32

/-- The type-tag byte of an argument: `f`, `i` or `s`. -/
def tagChar : OscValue → ℕ
  | .float32 _ => 102
  | .int32 _ => 105
  | .str _ => 115

/-- The wire bytes of one argument value. -/
def encodeValue : OscValue → List ℕ
  | .float32 bits => be4 bits
  | .int32 n => be4 (uint32OfInt n)
  | .str text => oscPadded (strBytes text)

/-- Modelled from the spec: `encode(address, arguments)` — the padded
NUL-terminated address, the padded type-tag string (`,` followed by one
tag byte per argument), then each argument's bytes. -/
def encode (m : ControlMessage) : List ℕ :=
  oscPadded (strBytes m.address) ++ oscPadded (44 :: m.arguments.map tagChar) ++
    (m.arguments.map encodeValue).flatten

/-- Split a byte list at its first NUL byte; fails when no NUL occurs in
the buffer. -/
def splitAtNul : List ℕ → Option (List ℕ × List ℕ)
  | [] => none
  | b :: rest =>
    if b = 0 then some ([], rest)
    else
      match splitAtNul rest with
      | none => none
      | some (c, r) => some (b :: c, r)

/-- Consume exactly `k` NUL padding bytes; fails on truncation or a
non-NUL padding byte. -/
def dropZeros : ℕ → List ℕ → Option (List ℕ)
  | 0, bs => some bs
  | _ + 1, [] => none
  | k + 1, b :: rest => if b = 0 then dropZeros k rest else none

/-- Read one NUL-terminated, 4-byte-aligned string field; returns the
content bytes and the remaining buffer. -/
def readOscString (bs : List ℕ) : Option (List ℕ × List ℕ) :=
  match splitAtNul bs with
  | none => none
  | some (c, r) =>
    match dropZeros (3 - c.length % 4) r with
    | none => none
    | some r2 => some (c, r2)

/-- Read one big-endian 32-bit value; fails on truncation. -/
def read4 : List ℕ → Option (ℕ × List ℕ)
  | a :: b :: c :: d :: rest => some (a * 2 ^ 24 + b * 2 ^ 16 + c * 2 ^ 8 + d, rest)
  | _ => none

/-- Rebuild a string from its decoded bytes. -/
def stringOfBytes (bs : List ℕ) : String :=
  String.mk (bs.map Char.ofNat)

/-- Decode the argument bytes guided by the declared tag bytes; fails on
an unknown tag or a truncated buffer. -/
def decodeArgs : List ℕ → List ℕ → Option (List OscValue × List ℕ)
  | [], bs => some ([], bs)
  | t :: ts, bs =>
    if t = 102 then
      match read4 bs with
      | none => none
      | some (u, r) =>
        match decodeArgs ts r with
        | none => none
        | some (vs, r2) => some (.float32 u :: vs, r2)
    else if t = 105 then
      match read4 bs with
      | none => none
      | some (u, r) =>
        match decodeArgs ts r with
        | none => none
        | some (vs, r2) => some (.int32 (int32OfUint u) :: vs, r2)
    else if t = 115 then
      match readOscString bs with
      | none => none
      | some (c, r) =>
        match decodeArgs ts r with
        | none => none
        | some (vs, r2) => some (.str (stringOfBytes c) :: vs, r2)
    else none

/-- Modelled from the spec: `decode(bytes)` — the inverse of `encode`.
Fails (`MalformedMessage`) when the address or tag field is not
NUL-terminated or not 4-byte aligned, when the tag string does not start
with the `,` marker, when a tag is unknown, or when the buffer length
does not match the declared arguments. -/
def decode (bs : List ℕ) : Option ControlMessage :=
  match readOscString bs with
  | none => none
  | some (addrBytes, r1) =>
    match readOscString r1 with
    | none => none
    | some (tagBytes, r2) =>
      match tagBytes with
      | [] => none
      | t :: ts =>
        if t = 44 then
          match decodeArgs ts r2 with
          | none => none
          | some (vs, rest) =>
            if rest.isEmpty then some ⟨stringOfBytes addrBytes, vs⟩ else none
        else none

/-- `splitAtNul` recovers a NUL-free prefix up to its terminator. -/
theorem splitAtNul_append (c r : List ℕ) (h : ∀ b ∈ c, b ≠ 0) :
    splitAtNul (c ++ 0 :: r) = some (c, r) := by
  induction c with
  | nil => simp [splitAtNul]
  | cons b c ih =>
    have hb : b ≠ 0 := h b (by simp)
    have ih2 := ih (fun x hx => h x (by simp [hx]))
    simp only [List.cons_append, splitAtNul, if_neg hb, List.append_eq, ih2]

/-- `dropZeros` consumes exactly the padding it is asked for. -/
theorem dropZeros_replicate (k : ℕ) (r : List ℕ) :
    dropZeros k (List.replicate k 0 ++ r) = some r := by
  induction k with
  | zero => simp [dropZeros]
  | succ k ih => simpa [List.replicate_succ, dropZeros] using ih

/-- Reading back one padded string field recovers its content and leaves
the rest of the buffer untouched. -/
theorem readOscString_padded (c r : List ℕ) (h : ∀ b ∈ c, b ≠ 0) :
    readOscString (oscPadded c ++ r) = some (c, r) := by
  have hlen : 4 - c.length % 4 = (3 - c.length % 4) + 1 := by omega
  have hsplit : oscPadded c ++ r
      = c ++ 0 :: (List.replicate (3 - c.length % 4) 0 ++ r) := by
    rw [oscPadded, hlen]
    simp [List.replicate_succ, List.append_assoc]
  rw [hsplit]
  simp only [readOscString, splitAtNul_append c _ h, dropZeros_replicate]

/-- Reading back 4 big-endian bytes recovers any 32-bit value. -/
theorem read4_be4 (u : ℕ) (r : List ℕ) (h : u < 2 ^ 32) :
    read4 (be4 u ++ r) = some (u, r) := by
  show some (u / 2 ^ 24 % 256 * 2 ^ 24 + u / 2 ^ 16 % 256 * 2 ^ 16
      + u / 2 ^ 8 % 256 * 2 ^ 8 + u % 256, r) = some (u, r)
  have hu : u / 2 ^ 24 % 256 * 2 ^ 24 + u / 2 ^ 16 % 256 * 2 ^ 16
      + u / 2 ^ 8 % 256 * 2 ^ 8 + u % 256 = u := by omega
  rw [hu]

/-- The two's-complement image of any integer fits in 32 bits. -/
theorem uint32OfInt_lt (n : ℤ) : uint32OfInt n < 2 ^ 32 := by
  simp only [uint32OfInt]
  omega

/-- Two's-complement round trip on the 32-bit integer range. -/
theorem int32OfUint_uint32OfInt (n : ℤ) (h1 : -(2 ^ 31) ≤ n) (h2 : n < 2 ^ 31) :
    int32OfUint (uint32OfInt n) = n := by
  simp only [int32OfUint, uint32OfInt]
  split <;> omega

/-- Rebuilding a string from its own bytes is the identity. -/
theorem stringOfBytes_strBytes (text : String) :
    stringOfBytes (strBytes text) = text := by
  have h : ∀ l : List Char, (l.map Char.toNat).map Char.ofNat = l := by
    intro l
    induction l with
    | nil => rfl
    | cons c l ih => simp [ih, Char.ofNat_toNat]
  show String.mk ((text.data.map Char.toNat).map Char.ofNat) = text
  rw [h]

/-- A codec-legal string has no NUL bytes. -/
theorem strBytes_ne_zero (text : String) (h : validOscStr text = true) :
    ∀ b ∈ strBytes text, b ≠ 0 := by
  intro b hb
  simp only [strBytes, List.mem_map] at hb
  obtain ⟨c, hc, rfl⟩ := hb
  simp only [validOscStr, List.all_eq_true, Bool.and_eq_true,
    decide_eq_true_eq] at h
  have := h c hc
  omega

/-- No type-tag byte is NUL. -/
theorem tagChar_ne_zero (v : OscValue) : tagChar v ≠ 0 := by
  cases v <;> simp [tagChar]

/-- Decoding the concatenated argument bytes under their own tag string
recovers the argument list exactly and consumes nothing else. -/
theorem decodeArgs_encode (vs : List OscValue) (r : List ℕ)
    (h : ∀ v ∈ vs, validValue v = true) :
    decodeArgs (vs.map tagChar) ((vs.map encodeValue).flatten ++ r)
      = some (vs, r) := by
  induction vs with
  | nil => simp [decodeArgs]
  | cons v vs ih =>
    have hv : validValue v = true := h v (by simp)
    have ihv := ih (fun x hx => h x (by simp [hx]))
    cases v with
    | float32 bits =>
      have hbits : bits < 2 ^ 32 := by
        simpa [validValue] using hv
      simp only [List.map_cons, List.flatten_cons, tagChar, encodeValue,
        List.append_assoc, decodeArgs, if_true,
        read4_be4 bits _ hbits, ihv]
    | int32 n =>
      have hn : -(2 ^ 31) ≤ n ∧ n < 2 ^ 31 := by
        simpa [validValue] using hv
      have h105 : (105 : ℕ) ≠ 102 := by omega
      simp only [List.map_cons, List.flatten_cons, tagChar, encodeValue,
        List.append_assoc, decodeArgs, if_neg h105, if_true,
        read4_be4 _ _ (uint32OfInt_lt n), ihv,
        int32OfUint_uint32OfInt n hn.1 hn.2]
    | str text =>
      have htext : validOscStr text = true := by
        simpa [validValue] using hv
      have h115a : (115 : ℕ) ≠ 102 := by omega
      have h115b : (115 : ℕ) ≠ 105 := by omega
      simp only [List.map_cons, List.flatten_cons, tagChar, encodeValue,
        List.append_assoc, decodeArgs, if_neg h115a, if_neg h115b, if_true,
        readOscString_padded _ _ (strBytes_ne_zero text htext), ihv,
        stringOfBytes_strBytes]

/-- C9: for every wire-legal control message — address and arguments of
the supported types (32-bit float, 32-bit integer, string) — decoding
its encoding reproduces the address and the argument list exactly. -/
theorem decode_encode_roundtrip (m : ControlMessage)
    (h : validMessage m = true) :
    decode (encode m) = some m := by
  obtain ⟨addr, args⟩ := m
  simp only [validMessage, Bool.and_eq_true, List.all_eq_true] at h
  have haddr : ∀ b ∈ strBytes addr, b ≠ 0 := strBytes_ne_zero addr h.1
  have htags : ∀ b ∈ 44 :: args.map tagChar, b ≠ 0 := by
    intro b hb
    rcases List.mem_cons.mp hb with rfl | hb
    · omega
    · obtain ⟨v, _, rfl⟩ := List.mem_map.mp hb
      exact tagChar_ne_zero v
  have hargs : ∀ v ∈ args, validValue v = true := h.2
  have hdec := decodeArgs_encode args [] hargs
  rw [List.append_nil] at hdec
  unfold encode decode
  simp only [List.append_assoc, readOscString_padded _ _ haddr,
    readOscString_padded _ _ htags, hdec, List.isEmpty_nil, if_true,
    stringOfBytes_strBytes]

/-- The spec's scenario message: address `/1/mainDim`, single float
argument `1.0` (IEEE-754 single-precision bit pattern `0x3F800000`). -/
def msgMainDim : ControlMessage :=
  { address := MAIN_DIM, arguments := [OscValue.float32 1065353216] }

/-- Witness for C9: the round trip on `("/1/mainDim", [1.0])`. -/
theorem decode_encode_roundtrip_witness :
    decode (encode msgMainDim) = some msgMainDim :=
  decode_encode_roundtrip msgMainDim (by decide)
